import Mathlib

/-!
Verification of spec claims for the Google Cloud samples corpus.

Each namespace shallowly embeds one Python source file of the repository:
pure functions become Lean functions, Python exceptions become `Except`
results, Python dicts become association lists (`List (String × α)` with
leftmost lookup, insertion-ordered like Python dicts), and calls into
vendor SDK primitives are modelled by explicit Lean definitions of their
documented behaviour.
-/

/-- Python exception classes that appear in the embedded code. -/
inductive PyErr where
  | keyError
  | typeError
  | valueError
  | invalidArgument
  | attributeError
  | systemExit
  deriving DecidableEq, Repr

deriving instance DecidableEq for Except

/-- Leftmost lookup in an association list, as Python `d[k]` / `k in d`
on a dict whose keys are unique (Python dicts keep insertion order). -/
def alookup (k : String) : List (String × α) → Option α
  | [] => Option.none
  | (f, v) :: rest => if f = k then some v else alookup k rest

namespace Trainer

/-! Embedding of `people-and-planet-ai/timeseries-classification/trainer.py`
(the `INPUTS_SPEC`/`OUTPUTS_SPEC` constants and the functions `validated`,
`serialize`, `deserialize`). -/

/-- TensorFlow dtypes used by the trainer. -/
inductive DType where
  | float32
  | int64
  | string_
  deriving DecidableEq, Repr

/-- Model of `tf.TensorSpec`: a dtype and a shape whose dimensions may be
`None` (unconstrained), as in `tf.TensorSpec(shape=(None, 1), dtype=...)`. -/
structure TensorSpec where
  shape : List (Option Nat)
  dtype : DType
  deriving DecidableEq, Repr

/-- Model of a concrete `tf.Tensor`: dtype, fully known shape, payload.
The payload stands for the tensor contents; no arithmetic is done on it. -/
structure Tensor where
  dtype : DType
  shape : List Nat
  data : List Int
  deriving DecidableEq, Repr

/-- Dimension compatibility of `tf.TensorShape.is_compatible_with`:
a `None` spec dimension accepts anything, a known one must agree. -/
def dimCompatible : Option Nat → Nat → Bool
  | Option.none, _ => true
  | some n, m => n = m

/-- Shape compatibility of `tf.TensorShape.is_compatible_with` for a spec
shape of known rank against a fully known tensor shape. -/
def shapeCompatible (spec : List (Option Nat)) (shape : List Nat) : Bool :=
  spec.length = shape.length &&
    (List.zip spec shape).all fun p => dimCompatible p.1 p.2

abbrev TensorDict := List (String × Tensor)
abbrev SpecDict := List (String × TensorSpec)

/-- One iteration of the loop body of `validated`: `KeyError` when the
field is absent, `TypeError` on an incompatible dtype, `ValueError` on an
incompatible shape (`spec.dtype.is_compatible_with` on concrete dtypes is
equality). -/
def checkField (tensor_dict : TensorDict) (field : String) (spec : TensorSpec) :
    Except PyErr Unit :=
  match alookup field tensor_dict with
  | Option.none => .error .keyError
  | some t =>
    if spec.dtype = t.dtype then
      if shapeCompatible spec.shape t.shape then .ok () else .error .valueError
    else .error .typeError

/-- The `for field, spec in spec_dict.items()` loop of `validated`. -/
def checkFields (tensor_dict : TensorDict) : SpecDict → Except PyErr Unit
  | [] => .ok ()
  | (field, spec) :: rest => do
    checkField tensor_dict field spec
    checkFields tensor_dict rest

/-- Embedding of `trainer.validated`: check every spec field in order and
return the `tensor_dict` argument itself when all checks pass. -/
def validated (tensor_dict : TensorDict) (spec_dict : SpecDict) :
    Except PyErr TensorDict :=
  (checkFields tensor_dict spec_dict).map fun _ => tensor_dict

/-- The spec `tf.TensorSpec(shape=(None, 1), dtype=tf.float32)` shared by
every field of `INPUTS_SPEC` and `OUTPUTS_SPEC`. -/
def floatSeqSpec : TensorSpec := ⟨[Option.none, some 1], .float32⟩

def INPUTS_SPEC : SpecDict :=
  [("distance_from_port", floatSeqSpec),
   ("speed", floatSeqSpec),
   ("course", floatSeqSpec),
   ("lat", floatSeqSpec),
   ("lon", floatSeqSpec)]

def OUTPUTS_SPEC : SpecDict :=
  [("is_fishing", floatSeqSpec)]

/-- Model of `tf.convert_to_tensor(value, dtype)` on a value that is
already a tensor: the identity when the dtype agrees, an error otherwise. -/
def convert_to_tensor (value : Tensor) (dtype : DType) : Except PyErr Tensor :=
  if value.dtype = dtype then .ok value else .error .valueError

/-- Model of `tf.io.serialize_tensor`: an opaque byte string determined by
(and recoverable as) the tensor it encodes. -/
structure SerializedTensor where
  tensor : Tensor
  deriving DecidableEq, Repr

/-- Model of the serialized `tf.train.Example` protobuf: its feature map,
one serialized tensor per field, in insertion order. -/
abbrev SerializedExample := List (String × SerializedTensor)

/-- The dict comprehension of `serialize` building `tensor_dict`: for each
item of `value_dict`, the subscript `spec_dict[field]` raises `KeyError`
on an unknown field, then `tf.convert_to_tensor` runs with that dtype. -/
def buildTensorDict (spec_dict : SpecDict) : TensorDict → Except PyErr TensorDict
  | [] => .ok []
  | (field, value) :: rest =>
    match alookup field spec_dict with
    | Option.none => .error .keyError
    | some spec => do
      let t ← convert_to_tensor value spec.dtype
      let ts ← buildTensorDict spec_dict rest
      .ok ((field, t) :: ts)

/-- Embedding of `trainer.serialize`: merge the two specs, convert every
value, validate, and serialize field by field into an Example. -/
def serialize (value_dict : TensorDict) : Except PyErr SerializedExample := do
  let spec_dict := INPUTS_SPEC ++ OUTPUTS_SPEC
  let tensor_dict ← buildTensorDict spec_dict value_dict
  let validated_tensor_dict ← validated tensor_dict spec_dict
  .ok (validated_tensor_dict.map fun p => (p.1, ⟨p.2⟩))

/-- Model of `tf.io.parse_example` with one required scalar
`FixedLenFeature` per listed field: an error when a field is missing from
the serialized example, otherwise the features in declaration order. -/
def parse_example (featureKeys : List String) (bytes : SerializedExample) :
    Except PyErr SerializedExample :=
  match featureKeys with
  | [] => .ok []
  | f :: fs =>
    match alookup f bytes with
    | Option.none => .error .invalidArgument
    | some bv => do
      let rest ← parse_example fs bytes
      .ok ((f, bv) :: rest)

/-- The inner `parse_tensor` of `deserialize`: `tf.io.parse_tensor` with
the spec dtype followed by `set_shape`, which keeps the concrete shape
when compatible and raises `ValueError` otherwise. -/
def parse_tensor (bytes_value : SerializedTensor) (spec : TensorSpec) :
    Except PyErr Tensor :=
  if bytes_value.tensor.dtype = spec.dtype then
    if shapeCompatible spec.shape bytes_value.tensor.shape then
      .ok bytes_value.tensor
    else .error .valueError
  else .error .invalidArgument

/-- The dict comprehension of `parse_features`: parse every example field
that occurs in the given spec dict, skipping the rest. -/
def parseKnown (spec_dict : SpecDict) : SerializedExample → Except PyErr TensorDict
  | [] => .ok []
  | (field, bv) :: rest =>
    match alookup field spec_dict with
    | Option.none => parseKnown spec_dict rest
    | some spec => do
      let t ← parse_tensor bv spec
      let ts ← parseKnown spec_dict rest
      .ok ((field, t) :: ts)

/-- The inner `parse_features` of `deserialize`. -/
def parse_features (ex : SerializedExample) (spec_dict : SpecDict) :
    Except PyErr TensorDict := do
  let tensor_dict ← parseKnown spec_dict ex
  validated tensor_dict spec_dict

/-- Embedding of `trainer.deserialize`: parse the example with one
required feature per spec field, then split into the inputs and outputs
dictionaries. -/
def deserialize (serialized_example : SerializedExample) :
    Except PyErr (TensorDict × TensorDict) := do
  let featureKeys := INPUTS_SPEC.map Prod.fst ++ OUTPUTS_SPEC.map Prod.fst
  let ex ← parse_example featureKeys serialized_example
  let ins ← parse_features ex INPUTS_SPEC
  let outs ← parse_features ex OUTPUTS_SPEC
  .ok (ins, outs)

/-- A spec field passes validation when it is present in the tensor dict
with a compatible dtype and a compatible shape. -/
def passes (td : TensorDict) (field : String) (spec : TensorSpec) : Prop :=
  ∃ t, alookup field td = some t ∧ spec.dtype = t.dtype ∧
    shapeCompatible spec.shape t.shape = true

/-- The exception class `validated` assigns to a failing spec field. -/
def failsWith (td : TensorDict) (field : String) (spec : TensorSpec) : PyErr → Prop
  | .keyError => alookup field td = Option.none
  | .typeError => ∃ t, alookup field td = some t ∧ spec.dtype ≠ t.dtype
  | .valueError => ∃ t, alookup field td = some t ∧ spec.dtype = t.dtype ∧
      shapeCompatible spec.shape t.shape = false
  | _ => False

end Trainer

/-- A small model of Python runtime values, enough for the Pub/Sub event
payloads and the Firestore `City` fields. -/
inductive PyVal where
  | none
  | bool (b : Bool)
  | int (n : Int)
  | str (s : String)
  | list (xs : List PyVal)
  | dict (entries : List (String × PyVal))

/-- Python truthiness for the modelled values: `None`, `False`, `0`, `""`,
`[]` and `{}` are falsy, everything else is truthy. -/
def PyVal.truthy : PyVal → Bool
  | .none => false
  | .bool b => b
  | .int n => n != 0
  | .str s => !(s = "")
  | .list xs => !xs.isEmpty
  | .dict es => !es.isEmpty

/-- Python `isinstance(v, dict)`. -/
def PyVal.isDict : PyVal → Bool
  | .dict _ => true
  | _ => false

/-- Python `v[k]` on a dict, `None` result standing for an absent key
(`k in v` is `getItem v k ≠ none` for dict `v`). -/
def PyVal.getItem : PyVal → String → Option PyVal
  | .dict es, k => alookup k es
  | _, _ => Option.none

namespace TrainerMain

/-! Embedding of the `__main__` block of
`people-and-planet-ai/timeseries-classification/trainer.py`: the argparse
declarations and the keyword arguments passed to `run`. -/

/-- An argparse `Namespace`: attribute name to parsed string value. -/
abbrev Namespace := List (String × String)

/-- Python attribute access `args.attr`: `AttributeError` when the parser
declared no such destination. -/
def getattr (ns : Namespace) (attr : String) : Except PyErr String :=
  match alookup attr ns with
  | some v => .ok v
  | Option.none => .error .attributeError

/-- Embedding of `parser.parse_args()` for the four declared arguments.
The command line is modelled as flag-to-value pairs; a missing required
flag makes argparse exit (`SystemExit`).  The declared flags are
`--trian-files` (dest `trian_files`), `--eval-files`, `--model-dir`
(default `os.environ.get("AIP_MODEL_DIR", "model")`) and
`--tensorboard-dir` (default `"tensorboard"`). -/
def parse_args (env : String → Option String) (argv : List (String × String)) :
    Except PyErr Namespace :=
  match alookup "--trian-files" argv with
  | Option.none => .error .systemExit
  | some trian_files =>
    match alookup "--eval-files" argv with
    | Option.none => .error .systemExit
    | some eval_files =>
      let model_dir := (alookup "--model-dir" argv).getD
        ((env "AIP_MODEL_DIR").getD "model")
      let tensorboard_dir := (alookup "--tensorboard-dir" argv).getD "tensorboard"
      .ok [("trian_files", trian_files), ("eval_files", eval_files),
           ("model_dir", model_dir), ("tensorboard_dir", tensorboard_dir)]

/-- The keyword arguments `run` would receive. -/
structure RunCall where
  train_files : String
  eval_files : String
  model_dir : String
  tensorboard_dir : String
  deriving DecidableEq, Repr

/-- Embedding of the `__main__` block: parse the arguments, then evaluate
the keyword arguments of `run(...)` in order — `args.train_files`,
`args.eval_files`, `args.output_dir`, `args.tensorboard_dir`. -/
def trainerMain (env : String → Option String) (argv : List (String × String)) :
    Except PyErr RunCall := do
  let args ← parse_args env argv
  let train_files ← getattr args "train_files"
  let eval_files ← getattr args "eval_files"
  let model_dir ← getattr args "output_dir"
  let tensorboard_dir ← getattr args "tensorboard_dir"
  .ok ⟨train_files, eval_files, model_dir, tensorboard_dir⟩

end TrainerMain

namespace EventsPubsub

/-! Embedding of the Cloud Run Pub/Sub handler `index()` of
`run/events-pubsub/main.py`. -/

/-- The cloudevents parse exceptions caught by `index`. -/
inductive CloudExc where
  | missingRequiredFields
  | invalidStructuredJSON
  | invalidRequiredFields
  deriving DecidableEq, Repr

/-- The part of a parsed CloudEvent that `index` reads: `event.data` and
`event['id']`. -/
structure CloudEvent where
  id : String
  data : PyVal

/-- A Flask `(body, status)` response tuple. -/
structure HttpResponse where
  body : String
  status : Nat
  deriving DecidableEq, Repr

/-- Embedding of `index()`.  The argument `parsed` is the outcome of
`from_http(request.headers, request.get_data())`; `b64decode` models
`base64.b64decode(...).decode('utf-8').strip()` applied to the message
`data` value. -/
def index (b64decode : PyVal → String) (parsed : Except CloudExc CloudEvent) :
    HttpResponse :=
  match parsed with
  | .error .missingRequiredFields =>
    ⟨"Failed to find all required cloudevent fields. ", 400⟩
  | .error .invalidStructuredJSON =>
    ⟨"Could not deserialize the payload as JSON. ", 400⟩
  | .error .invalidRequiredFields =>
    ⟨"Request contained invalid required cloudevent fields. ", 400⟩
  | .ok event =>
    let envelope := event.data
    if !envelope.truthy then
      ⟨"Bad Request: no Pub/Sub message received", 400⟩
    else if !envelope.isDict || (envelope.getItem "message").isNone then
      ⟨"Bad Request: invalid Pub/Sub message format", 400⟩
    else
      let pubsub_message := (envelope.getItem "message").getD .none
      let name :=
        if pubsub_message.isDict && !(pubsub_message.getItem "data").isNone then
          b64decode ((pubsub_message.getItem "data").getD .none)
        else "World"
      ⟨"Hello, " ++ name ++ "! ID: " ++ event.id, 200⟩

end EventsPubsub

namespace DisableServiceAccount

/-! Embedding of `iam/cloud-client/snippets/disable_service_account.py`.
The function's observable behaviour is the sequence of RPCs it issues and
what it prints; both are returned explicitly. -/

/-- One RPC against the IAM service: the request type sent and the `name`
field set on it. -/
structure RpcCall where
  method : String
  name : String
  deriving DecidableEq, Repr

/-- The part of the `get_service_account` reply that the snippet reads. -/
structure ServiceAccount where
  disabled : Bool
  deriving DecidableEq, Repr

/-- Embedding of `disable_service_account(project_id, account)`.  The
`reply` argument is the service's response to the `GetServiceAccountRequest`.
Returns the list of RPCs issued, in order, and the lines printed. -/
def disable_service_account (reply : ServiceAccount)
    (project_id account : String) : List RpcCall × List String :=
  let name := "projects/" ++ project_id ++ "/serviceAccounts/" ++ account
  let calls := [⟨"DisableServiceAccount", name⟩, ⟨"GetServiceAccount", name⟩]
  let printed :=
    if reply.disabled then ["Disabled service account: " ++ account] else []
  (calls, printed)

end DisableServiceAccount

namespace RestrictApiKey

/-! Embedding of `auth/api-client/restrict_api_key_server.py`: the
`UpdateKeyRequest` built before the `update_key` RPC.  The proto message
types are modelled with every field the vendor defines for them at its
proto3 default. -/

structure ServerKeyRestrictions where
  allowed_ips : List String := []
  deriving DecidableEq, Repr

structure BrowserKeyRestrictions where
  allowed_referrers : List String := []
  deriving DecidableEq, Repr

structure AndroidKeyRestrictions where
  allowed_applications : List String := []
  deriving DecidableEq, Repr

structure IosKeyRestrictions where
  allowed_bundle_ids : List String := []
  deriving DecidableEq, Repr

structure ApiTarget where
  service : String := ""
  methods : List String := []
  deriving DecidableEq, Repr

/-- The `client_restrictions` oneof of `Restrictions`: unset by default,
set as a whole when one alternative is assigned. -/
inductive ClientRestrictions where
  | browser (b : BrowserKeyRestrictions)
  | server (s : ServerKeyRestrictions)
  | android (a : AndroidKeyRestrictions)
  | ios (i : IosKeyRestrictions)
  deriving DecidableEq, Repr

structure Restrictions where
  client_restrictions : Option ClientRestrictions := Option.none
  api_targets : List ApiTarget := []
  deriving DecidableEq, Repr

structure Key where
  name : String := ""
  uid : String := ""
  display_name : String := ""
  key_string : String := ""
  create_time : String := ""
  update_time : String := ""
  delete_time : String := ""
  annotations_ : List (String × String) := []
  restrictions : Restrictions := {}
  etag : String := ""
  deriving DecidableEq, Repr

structure UpdateKeyRequest where
  key : Key := {}
  update_mask : String := ""
  deriving DecidableEq, Repr

/-- Embedding of `restrict_api_key_server(project_id, key_id)` up to the
RPC call: the request object handed to `client.update_key`. -/
def restrict_api_key_server (project_id key_id : String) : UpdateKeyRequest :=
  let server_key_restrictions : ServerKeyRestrictions :=
    { allowed_ips := ["198.51.100.0/24", "2000:db8::/64"] }
  let restrictions : Restrictions :=
    { client_restrictions := some (.server server_key_restrictions) }
  let key : Key :=
    { name := "projects/" ++ project_id ++ "/locations/global/keys/" ++ key_id,
      restrictions := restrictions }
  { key := key, update_mask := "restrictions" }

end RestrictApiKey

namespace BlobstoreWsgi

/-! Embedding of the WSGI router of
`appengine/python3-wormhole-samples/blobstore/wsgi/main.py`: the route
table `urls` and `Application.__call__`.  Each route's regex is embedded
as its `re.search` denotation on the stripped path, including the Python
semantics of an unanchored search and of `$` also matching just before a
trailing final newline; `.` does not match a newline. -/

inductive Handler where
  | uploadFormHandler
  | uploadPhotoHandler
  | viewPhotoHandler
  deriving DecidableEq, Repr

/-- The observable outcome of one WSGI request: which handler class is
instantiated and called with which `environ['app.url_args']`, or the
`not_found` 404 response. -/
inductive WsgiOutcome where
  | dispatched (handler : Handler) (url_args : List String)
  | notFound (status : String)
  deriving DecidableEq, Repr

/-- Python `PATH_INFO.lstrip('/')`: drop every leading slash. -/
def lstripSlash (s : String) : List Char := s.data.dropWhile (· = '/')

/-- Denotation of `re.search(r'^$', path)`: with no MULTILINE flag, `^`
matches only at the start, `$` at the end or before a trailing final
newline, so only `""` and `"\n"` match. -/
def searchEmpty (path : List Char) : Option (List String) :=
  if path = [] ∨ path = ['\n'] then some [] else Option.none

def uploadLit : List Char := "upload_photo".data

/-- Denotation of `re.search(r'upload_photo/?$', path)`: an unanchored
search that succeeds exactly on strings ending in `upload_photo` or
`upload_photo/`, optionally followed by one final newline. -/
def searchUploadPhoto (path : List Char) : Option (List String) :=
  if uploadLit.isSuffixOf path ∨ (uploadLit ++ ['/']).isSuffixOf path
      ∨ (uploadLit ++ ['\n']).isSuffixOf path
      ∨ (uploadLit ++ ['/', '\n']).isSuffixOf path
  then some [] else Option.none

def viewLit : List Char := "view_photo/".data

/-- One anchor attempt of `re.search(r'view_photo/(.+)$', path)` at a
given start position: the literal must match there and the greedy `(.+)`
must reach `$`, preferring the end of the string over the position before
a trailing final newline; `.` never matches a newline. -/
def tryViewAt (l : List Char) : Option String :=
  if viewLit.isPrefixOf l then
    let rest := l.drop viewLit.length
    if rest ≠ [] ∧ ¬ '\n' ∈ rest then some ⟨rest⟩
    else if rest.getLast? = some '\n' ∧ rest.dropLast ≠ [] ∧
        ¬ '\n' ∈ rest.dropLast then some ⟨rest.dropLast⟩
    else Option.none
  else Option.none

/-- Denotation of `re.search(r'view_photo/(.+)$', path)`: try each start
position left to right and return `match.groups()` of the first success. -/
def searchViewPhoto : List Char → Option (List String)
  | [] => Option.none
  | c :: rest =>
    match tryViewAt (c :: rest) with
    | some g => some [g]
    | Option.none => searchViewPhoto rest

abbrev SearchFn := List Char → Option (List String)

/-- The route table `urls` of the sample, in source order. -/
def urls : List (SearchFn × Handler) :=
  [(searchEmpty, .uploadFormHandler),
   (searchUploadPhoto, .uploadPhotoHandler),
   (searchViewPhoto, .viewPhotoHandler)]

/-- The `for regex, handler in self.routes` loop of `Application.__call__`:
first match wins, its groups become `environ['app.url_args']`; falling
through calls `self.not_found`, which responds `404 Not Found`. -/
def scanRoutes (path : List Char) : List (SearchFn × Handler) → WsgiOutcome
  | [] => .notFound "404 Not Found"
  | (search, handler) :: rest =>
    match search path with
    | some groups => .dispatched handler groups
    | Option.none => scanRoutes path rest

/-- Embedding of `Application.__call__` on the request path. -/
def applicationCall (path_info : String) : WsgiOutcome :=
  scanRoutes (lstripSlash path_info) urls

end BlobstoreWsgi

namespace Backoff

/-! Model of the generic exponential-backoff decorator applied in
`datalabeling/create_annotation_spec_set_test.py` and
`datalabeling/import_data_test.py`. -/

/-- The exceptions a wrapped call may raise: the retried
`google.api_core.exceptions.DeadlineExceeded`, or any other exception. -/
inductive PyExc where
  | deadlineExceeded
  | otherExc (code : Nat)
  deriving DecidableEq, Repr

inductive RetryOutcome (α : Type) where
  | success (a : α)
  | failure (e : PyExc)
  deriving DecidableEq, Repr

/-- The observable behaviour of one decorated call: its outcome, how many
times the wrapped function was invoked, and the sleeps performed between
invocations, in order. -/
structure RetryRun (α : Type) where
  outcome : RetryOutcome α
  attempts : Nat
  waits : List Nat
  deriving DecidableEq, Repr

/-- Modelled from the spec: the vendored `backoff` package (not part of
this repository) whose decorator
`backoff.on_exception(backoff.expo, DeadlineExceeded, max_time=maxTime)`
the tests apply.  `f n` is the outcome of the `n`-th invocation of the
wrapped call; `backoff.expo` yields the waits 2^0, 2^1, 2^2, ...; the
decorator re-invokes only after the listed exception `DeadlineExceeded`,
sleeping `min(2^n, maxTime - elapsed)` and giving up (re-raising) once
the elapsed time reaches `maxTime`; any other exception propagates at
once, and a successful value is returned unchanged.  The `fuel` argument
only bounds the recursion and is chosen large enough never to run out. -/
def goBackoff (f : Nat → Except PyExc α) (maxTime : Nat) :
    Nat → Nat → Nat → RetryRun α
  | fuel, n, elapsed =>
    match f n with
    | .ok a => ⟨.success a, n + 1, []⟩
    | .error e =>
      if e = .deadlineExceeded ∧ elapsed < maxTime then
        match fuel with
        | 0 => ⟨.failure e, n + 1, []⟩
        | fuel' + 1 =>
          let wait := min (2 ^ n) (maxTime - elapsed)
          let r := goBackoff f maxTime fuel' (n + 1) (elapsed + wait)
          ⟨r.outcome, r.attempts, wait :: r.waits⟩
      else ⟨.failure e, n + 1, []⟩

/-- One decorated call, as in the datalabeling tests
(`max_time=60` or `max_time=testing_lib.RETRY_DEADLINE`). -/
def runBackoff (f : Nat → Except PyExc α) (maxTime : Nat) : RetryRun α :=
  goBackoff f maxTime (maxTime + 1) 0 0

end Backoff

namespace FirestoreCity

/-! Embedding of the `City` class of `firestore/cloud-async-client/snippets.py`. -/

structure City where
  name : PyVal
  state : PyVal
  country : PyVal
  capital : PyVal
  population : PyVal
  regions : PyVal

/-- The constructor `City(name, state, country)` with its keyword defaults
`capital=False, population=0, regions=[]`. -/
def City.make (name state country : PyVal) : City :=
  ⟨name, state, country, .bool false, .int 0, .list []⟩

/-- Embedding of `City.to_dict`: always store name, state, country; store
capital, population, regions only when truthy. -/
def City.to_dict (c : City) : List (String × PyVal) :=
  let dest := [("name", c.name), ("state", c.state), ("country", c.country)]
  let dest := if c.capital.truthy then dest ++ [("capital", c.capital)] else dest
  let dest := if c.population.truthy then dest ++ [("population", c.population)] else dest
  if c.regions.truthy then dest ++ [("regions", c.regions)] else dest

/-- Embedding of `City.from_dict`: subscripting `source["name"]` (and
state, country) raises `KeyError` when absent; capital, population and
regions are overwritten only when their key is present. -/
def City.from_dict (source : List (String × PyVal)) : Except PyErr City := do
  let name ← match alookup "name" source with
    | some v => .ok v
    | Option.none => .error PyErr.keyError
  let state ← match alookup "state" source with
    | some v => .ok v
    | Option.none => .error PyErr.keyError
  let country ← match alookup "country" source with
    | some v => .ok v
    | Option.none => .error PyErr.keyError
  let city := City.make name state country
  let city := match alookup "capital" source with
    | some v => { city with capital := v }
    | Option.none => city
  let city := match alookup "population" source with
    | some v => { city with population := v }
    | Option.none => city
  let city := match alookup "regions" source with
    | some v => { city with regions := v }
    | Option.none => city
  .ok city

end FirestoreCity

/-! Theorems.  Each claim of the specification gets one theorem below,
preceded by helper lemmas where needed. -/

namespace Trainer

lemma checkField_ok_iff (td : TensorDict) (f : String) (s : TensorSpec) :
    checkField td f s = .ok () ↔ passes td f s := by
  unfold checkField passes
  cases h : alookup f td with
  | none => simp
  | some t =>
    by_cases hd : s.dtype = t.dtype <;>
      by_cases hs : shapeCompatible s.shape t.shape = true <;>
        simp [hd, hs]

lemma checkField_error_iff (td : TensorDict) (f : String) (s : TensorSpec)
    (e : PyErr) : checkField td f s = .error e ↔ failsWith td f s e := by
  unfold checkField
  cases h : alookup f td with
  | none =>
    cases e <;> simp [failsWith, h]
  | some t =>
    by_cases hd : s.dtype = t.dtype
    · by_cases hs : shapeCompatible s.shape t.shape = true
      · cases e <;> simp [failsWith, h, hd, hs]
      · rw [Bool.not_eq_true] at hs
        cases e <;> simp [failsWith, h, hd, hs]
    · cases e <;> simp [failsWith, h, hd]

lemma checkFields_ok_iff (td : TensorDict) (sd : SpecDict) :
    checkFields td sd = .ok () ↔ ∀ p ∈ sd, passes td p.1 p.2 := by
  induction sd with
  | nil => simp [checkFields]
  | cons hd0 tl ih =>
    obtain ⟨f, s⟩ := hd0
    simp only [checkFields, Bind.bind, Except.bind, List.mem_cons, forall_eq_or_imp]
    cases h : checkField td f s with
    | error e =>
      simp only [h]
      constructor
      · intro hc; cases hc
      · rintro ⟨hp, -⟩
        rw [(checkField_ok_iff td f s).mpr hp] at h
        cases h
    | ok u =>
      cases u
      simp only [h, ih]
      have := (checkField_ok_iff td f s).mp h
      tauto

lemma checkFields_error_iff (td : TensorDict) (sd : SpecDict) (e : PyErr) :
    checkFields td sd = .error e ↔
      ∃ pre f s post, sd = pre ++ (f, s) :: post ∧
        (∀ p ∈ pre, passes td p.1 p.2) ∧ failsWith td f s e := by
  induction sd with
  | nil =>
    simp only [checkFields]
    constructor
    · intro hc; cases hc
    · rintro ⟨pre, f, s, post, hsd, -⟩
      cases pre <;> simp at hsd
  | cons hd0 tl ih =>
    obtain ⟨f0, s0⟩ := hd0
    simp only [checkFields, Bind.bind, Except.bind]
    cases h : checkField td f0 s0 with
    | error e0 =>
      simp only [h, Except.error.injEq]
      constructor
      · rintro rfl
        exact ⟨[], f0, s0, tl, rfl, by simp, (checkField_error_iff td f0 s0 e0).mp h⟩
      · rintro ⟨pre, f, s, post, hsd, hpre, hfail⟩
        cases pre with
        | nil =>
          simp only [List.nil_append, List.cons.injEq, Prod.mk.injEq] at hsd
          obtain ⟨⟨rfl, rfl⟩, rfl⟩ := hsd
          have h2 := (checkField_error_iff td f0 s0 e).mpr hfail
          rw [h2] at h
          exact (Except.error.inj h).symm
        | cons q pre' =>
          simp only [List.cons_append, List.cons.injEq] at hsd
          obtain ⟨rfl, rfl⟩ := hsd
          have hq : passes td f0 s0 := hpre (f0, s0) (by simp)
          rw [(checkField_ok_iff td f0 s0).mpr hq] at h
          cases h
    | ok u =>
      cases u
      simp only [h, ih]
      constructor
      · rintro ⟨pre, f, s, post, rfl, hpre, hfail⟩
        refine ⟨(f0, s0) :: pre, f, s, post, rfl, ?_, hfail⟩
        intro p hp
        rcases List.mem_cons.mp hp with rfl | hp'
        · exact (checkField_ok_iff td f0 s0).mp h
        · exact hpre p hp'
      · rintro ⟨pre, f, s, post, hsd, hpre, hfail⟩
        cases pre with
        | nil =>
          simp only [List.nil_append, List.cons.injEq, Prod.mk.injEq] at hsd
          obtain ⟨⟨rfl, rfl⟩, rfl⟩ := hsd
          have h2 := (checkField_error_iff td f0 s0 e).mpr hfail
          rw [h2] at h
          cases h
        | cons q pre' =>
          simp only [List.cons_append, List.cons.injEq] at hsd
          obtain ⟨rfl, rfl⟩ := hsd
          exact ⟨pre', f, s, post, rfl,
            fun p hp => hpre p (List.mem_cons_of_mem _ hp), hfail⟩

/-- C8: counterexample.  The claim says `validated` raises `KeyError` if
and only if some spec field is absent from the tensor dict.  Here spec
field "b" is absent, yet `validated` raises `TypeError`, because the
earlier field "a" is present with an incompatible dtype and the loop
checks fields in spec order. -/
theorem validated_keyerror_counterexample :
    validated [("a", ⟨.int64, [1, 1], [0]⟩)] [("a", floatSeqSpec), ("b", floatSeqSpec)]
        = .error .typeError ∧
    ("b", floatSeqSpec) ∈ [("a", floatSeqSpec), ("b", floatSeqSpec)] ∧
    alookup "b" [("a", (⟨.int64, [1, 1], [0]⟩ : Tensor))] = Option.none ∧
    (validated [("a", ⟨.int64, [1, 1], [0]⟩)] [("a", floatSeqSpec), ("b", floatSeqSpec)]
        == .error .keyError) = false := by
  refine ⟨by decide, by decide, by decide, by decide⟩

/-- C8 (amended): `validated` checks the spec fields in `spec_dict` order
and raises for the first offending field — `KeyError` when that field is
absent, `TypeError` when present with an incompatible dtype, `ValueError`
when present with an incompatible shape; when every spec field passes it
returns its `tensor_dict` argument itself, unchanged, fields not in
`spec_dict` passing through unchecked. -/
theorem validated_spec (td : TensorDict) (sd : SpecDict) :
    (validated td sd = .ok td ↔ ∀ p ∈ sd, passes td p.1 p.2) ∧
    (∀ r, validated td sd = .ok r → r = td) ∧
    (∀ e, validated td sd = .error e ↔
      ∃ pre f s post, sd = pre ++ (f, s) :: post ∧
        (∀ p ∈ pre, passes td p.1 p.2) ∧ failsWith td f s e) := by
  refine ⟨?_, ?_, ?_⟩
  · cases h : checkFields td sd with
    | ok u =>
      cases u
      simp only [validated, h, Except.map]
      simp only [true_iff]
      exact (checkFields_ok_iff td sd).mp h
    | error e =>
      simp only [validated, h, Except.map]
      constructor
      · intro hc; cases hc
      · intro hall
        rw [(checkFields_ok_iff td sd).mpr hall] at h
        cases h
  · intro r
    cases h : checkFields td sd with
    | ok u =>
      cases u
      simp only [validated, h, Except.map, Except.ok.injEq]
      intro he; exact he.symm
    | error e =>
      simp only [validated, h, Except.map]
      intro hc; cases hc
  · intro e
    have hmap : validated td sd = .error e ↔ checkFields td sd = .error e := by
      cases h : checkFields td sd with
      | ok u => cases u; simp [validated, h, Except.map]
      | error e0 => simp [validated, h, Except.map]
    rw [hmap]
    exact checkFields_error_iff td sd e

/-- C8: witness. -/
theorem validated_spec_witness :
    validated [("x", ⟨.float32, [1, 1], [0]⟩)] [("x", floatSeqSpec)] =
      .ok [("x", ⟨.float32, [1, 1], [0]⟩)] :=
  (validated_spec [("x", ⟨.float32, [1, 1], [0]⟩)] [("x", floatSeqSpec)]).1.mpr
    (by
      intro p hp
      simp only [List.mem_singleton] at hp
      subst hp
      exact ⟨⟨.float32, [1, 1], [0]⟩, by decide, by decide, by decide⟩)

/-- C1: counterexample.  The claim says no round-trip law holds for any
pair of functions, in particular that `deserialize` after `serialize`
does not reproduce the input tensors split into the inputs and outputs
dictionaries.  On this conforming value dictionary it does exactly that. -/
theorem roundtrip_counterexample :
    (serialize
        [("distance_from_port", ⟨.float32, [1, 1], [7]⟩),
         ("speed", ⟨.float32, [1, 1], [2]⟩),
         ("course", ⟨.float32, [1, 1], [3]⟩),
         ("lat", ⟨.float32, [1, 1], [4]⟩),
         ("lon", ⟨.float32, [1, 1], [5]⟩),
         ("is_fishing", ⟨.float32, [1, 1], [1]⟩)] >>= deserialize) =
      .ok
        ([("distance_from_port", ⟨.float32, [1, 1], [7]⟩),
          ("speed", ⟨.float32, [1, 1], [2]⟩),
          ("course", ⟨.float32, [1, 1], [3]⟩),
          ("lat", ⟨.float32, [1, 1], [4]⟩),
          ("lon", ⟨.float32, [1, 1], [5]⟩)],
         [("is_fishing", ⟨.float32, [1, 1], [1]⟩)]) := by decide

/-- C1 (amended): a round-trip law does hold for `trainer.serialize` and
`trainer.deserialize`: over value dictionaries whose fields are exactly
those of `INPUTS_SPEC` and `OUTPUTS_SPEC` with dtype- and
shape-conforming tensors, `deserialize` after `serialize` reproduces the
input tensors, split into the inputs and outputs dictionaries. -/
theorem serialize_deserialize_roundtrip
    (d s c la lo f : Tensor)
    (hd : d.dtype = .float32) (hd2 : shapeCompatible [Option.none, some 1] d.shape = true)
    (hs : s.dtype = .float32) (hs2 : shapeCompatible [Option.none, some 1] s.shape = true)
    (hc : c.dtype = .float32) (hc2 : shapeCompatible [Option.none, some 1] c.shape = true)
    (hla : la.dtype = .float32) (hla2 : shapeCompatible [Option.none, some 1] la.shape = true)
    (hlo : lo.dtype = .float32) (hlo2 : shapeCompatible [Option.none, some 1] lo.shape = true)
    (hf : f.dtype = .float32) (hf2 : shapeCompatible [Option.none, some 1] f.shape = true) :
    (serialize [("distance_from_port", d), ("speed", s), ("course", c),
                ("lat", la), ("lon", lo), ("is_fishing", f)] >>= deserialize) =
      .ok ([("distance_from_port", d), ("speed", s), ("course", c),
            ("lat", la), ("lon", lo)], [("is_fishing", f)]) := by
  simp [serialize, deserialize, buildTensorDict, alookup, INPUTS_SPEC, OUTPUTS_SPEC,
    floatSeqSpec, convert_to_tensor, validated, checkFields, checkField,
    parse_example, parseKnown, parse_tensor, parse_features,
    hd, hd2, hs, hs2, hc, hc2, hla, hla2, hlo, hlo2, hf, hf2,
    Bind.bind, Except.bind, Except.map]

/-- C1: witness. -/
theorem serialize_deserialize_roundtrip_witness :
    (serialize [("distance_from_port", ⟨.float32, [2, 1], [1, 2]⟩),
                ("speed", ⟨.float32, [2, 1], [3, 4]⟩),
                ("course", ⟨.float32, [2, 1], [5, 6]⟩),
                ("lat", ⟨.float32, [2, 1], [7, 8]⟩),
                ("lon", ⟨.float32, [2, 1], [9, 10]⟩),
                ("is_fishing", ⟨.float32, [2, 1], [0, 1]⟩)] >>= deserialize) =
      .ok ([("distance_from_port", ⟨.float32, [2, 1], [1, 2]⟩),
            ("speed", ⟨.float32, [2, 1], [3, 4]⟩),
            ("course", ⟨.float32, [2, 1], [5, 6]⟩),
            ("lat", ⟨.float32, [2, 1], [7, 8]⟩),
            ("lon", ⟨.float32, [2, 1], [9, 10]⟩)],
           [("is_fishing", ⟨.float32, [2, 1], [0, 1]⟩)]) :=
  serialize_deserialize_roundtrip
    ⟨.float32, [2, 1], [1, 2]⟩ ⟨.float32, [2, 1], [3, 4]⟩ ⟨.float32, [2, 1], [5, 6]⟩
    ⟨.float32, [2, 1], [7, 8]⟩ ⟨.float32, [2, 1], [9, 10]⟩ ⟨.float32, [2, 1], [0, 1]⟩
    rfl (by decide) rfl (by decide) rfl (by decide)
    rfl (by decide) rfl (by decide) rfl (by decide)

end Trainer

namespace TrainerMain

/-- C4: executing trainer.py as a main program never invokes `run` with
the parsed argument values.  The parser declares `--trian-files` (dest
`trian_files`), but the code then reads `args.train_files` (and
`args.output_dir`), so every execution that passes argument parsing
raises `AttributeError` before `run` is called; in particular the
well-formed command line below does. -/
theorem trainer_main_never_runs :
    trainerMain (fun _ => Option.none)
        [("--trian-files", "gs://bucket/train/*"), ("--eval-files", "gs://bucket/eval/*")]
      = .error .attributeError ∧
    ∀ env argv, ∃ e, trainerMain env argv = .error e := by
  constructor
  · rfl
  · intro env argv
    cases h1 : alookup "--trian-files" argv with
    | none =>
      exact ⟨.systemExit, by simp [trainerMain, parse_args, h1, Bind.bind, Except.bind]⟩
    | some v1 =>
      cases h2 : alookup "--eval-files" argv with
      | none =>
        exact ⟨.systemExit, by simp [trainerMain, parse_args, h1, h2, Bind.bind, Except.bind]⟩
      | some v2 =>
        exact ⟨.attributeError, by
          simp [trainerMain, parse_args, h1, h2, getattr, alookup, Bind.bind, Except.bind]⟩

end TrainerMain

namespace EventsPubsub

/-- C2: counterexample.  The claim says no non-test code path catches an
exception and converts it into a structured user-facing error response.
The Cloud Run handler `index()` is non-test code and converts the
`MissingRequiredFields` parse exception into a structured HTTP 400. -/
theorem structured_error_counterexample :
    index (fun _ => "") (.error .missingRequiredFields) =
      ⟨"Failed to find all required cloudevent fields. ", 400⟩ ∧
    (index (fun _ => "") (.error .missingRequiredFields)).status = 400 :=
  ⟨rfl, rfl⟩

/-- C2 (amended): the corpus does contain a non-test code path that
catches exceptions and converts them into structured user-facing error
responses: `index()` returns HTTP 400 with a fixed body for each of the
three cloudevents parse exceptions, HTTP 400 when the event data is
empty, not a dict, or lacks a "message" key, and HTTP 200 otherwise. -/
theorem index_spec (dec : PyVal → String) :
    (index dec (.error .missingRequiredFields) =
      ⟨"Failed to find all required cloudevent fields. ", 400⟩) ∧
    (index dec (.error .invalidStructuredJSON) =
      ⟨"Could not deserialize the payload as JSON. ", 400⟩) ∧
    (index dec (.error .invalidRequiredFields) =
      ⟨"Request contained invalid required cloudevent fields. ", 400⟩) ∧
    (∀ ev : CloudEvent, ev.data.truthy = false →
      index dec (.ok ev) = ⟨"Bad Request: no Pub/Sub message received", 400⟩) ∧
    (∀ ev : CloudEvent, ev.data.truthy = true →
      (ev.data.isDict = false ∨ ev.data.getItem "message" = Option.none) →
      index dec (.ok ev) = ⟨"Bad Request: invalid Pub/Sub message format", 400⟩) ∧
    (∀ ev : CloudEvent, ev.data.truthy = true → ev.data.isDict = true →
      ∀ m, ev.data.getItem "message" = some m →
      (index dec (.ok ev)).status = 200) := by
  refine ⟨rfl, rfl, rfl, ?_, ?_, ?_⟩
  · intro ev h
    simp [index, h]
  · intro ev ht hbad
    rcases hbad with hd | hm
    · simp [index, ht, hd]
    · simp [index, ht, hm]
  · intro ev ht hd m hm
    simp [index, ht, hd, hm]

/-- C2: witness. -/
theorem index_spec_witness :
    index (fun _ => "w") (.ok ⟨"42", .str "oops"⟩) =
      ⟨"Bad Request: invalid Pub/Sub message format", 400⟩ :=
  (index_spec (fun _ => "w")).2.2.2.2.1 ⟨"42", .str "oops"⟩ (by decide) (.inl rfl)

end EventsPubsub

namespace DisableServiceAccount

/-- C3: counterexample.  The claim says `disable_service_account`
performs exactly one RPC; at this concrete input its RPC trace has two
calls, a `DisableServiceAccountRequest` then a `GetServiceAccountRequest`,
so its length is not one. -/
theorem two_rpcs_counterexample :
    (disable_service_account ⟨true⟩ "my-project"
        "sa@my-project.iam.gserviceaccount.com").1 =
      [⟨"DisableServiceAccount",
        "projects/my-project/serviceAccounts/sa@my-project.iam.gserviceaccount.com"⟩,
       ⟨"GetServiceAccount",
        "projects/my-project/serviceAccounts/sa@my-project.iam.gserviceaccount.com"⟩] ∧
    ((disable_service_account ⟨true⟩ "my-project"
        "sa@my-project.iam.gserviceaccount.com").1.length == 1) = false :=
  ⟨rfl, rfl⟩

/-- C3 (amended): for every project id, account and service reply,
`disable_service_account` performs exactly two RPCs against the IAM
service — a `DisableServiceAccountRequest` followed by a
`GetServiceAccountRequest` on the same resource name — and prints only
when the returned account is disabled. -/
theorem disable_service_account_two_rpcs (reply : ServiceAccount)
    (project_id account : String) :
    (disable_service_account reply project_id account).1 =
      [⟨"DisableServiceAccount", "projects/" ++ project_id ++ "/serviceAccounts/" ++ account⟩,
       ⟨"GetServiceAccount", "projects/" ++ project_id ++ "/serviceAccounts/" ++ account⟩] ∧
    (disable_service_account reply project_id account).1.length = 2 ∧
    (disable_service_account reply project_id account).2 =
      (if reply.disabled then ["Disabled service account: " ++ account] else []) :=
  ⟨rfl, rfl, rfl⟩

end DisableServiceAccount

namespace RestrictApiKey

/-- C7: for every project id and key id, the `UpdateKeyRequest` built by
`restrict_api_key_server` sets exactly `key.name`,
`key.restrictions.server_key_restrictions.allowed_ips` (the two literal
ranges) and `update_mask = "restrictions"`; every other field of the
request and of the embedded `Key` keeps its default value. -/
theorem restrict_api_key_server_frame (project_id key_id : String) :
    restrict_api_key_server project_id key_id =
      { key :=
          { name := "projects/" ++ project_id ++ "/locations/global/keys/" ++ key_id,
            uid := "",
            display_name := "",
            key_string := "",
            create_time := "",
            update_time := "",
            delete_time := "",
            annotations_ := [],
            restrictions :=
              { client_restrictions :=
                  some (.server { allowed_ips := ["198.51.100.0/24", "2000:db8::/64"] }),
                api_targets := [] },
            etag := "" },
        update_mask := "restrictions" } :=
  rfl

end RestrictApiKey

namespace BlobstoreWsgi

lemma uploadLit_length : uploadLit.length = 12 := by decide

lemma searchEmpty_none_of_upload (s t : List Char)
    (h : s = t ++ uploadLit ∨ s = (t ++ uploadLit) ++ ['/']) :
    searchEmpty s = Option.none := by
  unfold searchEmpty
  rw [if_neg]
  rintro (habs | habs) <;>
    rcases h with rfl | rfl <;>
      · have hl := congrArg List.length habs
        simp only [List.length_append, uploadLit_length, List.length_nil,
          List.length_cons] at hl
        omega

lemma searchUploadPhoto_some_of_upload (s t : List Char)
    (h : s = t ++ uploadLit ∨ s = (t ++ uploadLit) ++ ['/']) :
    searchUploadPhoto s = some [] := by
  unfold searchUploadPhoto
  rw [if_pos]
  rcases h with rfl | rfl
  · exact Or.inl (by
      rw [List.isSuffixOf_iff_suffix]
      exact List.suffix_append t uploadLit)
  · refine Or.inr (Or.inl ?_)
    rw [List.isSuffixOf_iff_suffix, List.append_assoc]
    exact List.suffix_append t (uploadLit ++ ['/'])

/-- C5: `Application.__call__` strips leading slashes, scans the route
table in order and dispatches the first unanchored `re.search` match,
handing `match.groups()` to the handler; with no match it responds
`404 Not Found`.  Because the search is unanchored on the left, every
path whose stripped form ends in `upload_photo` or `upload_photo/` — not
only `/upload_photo` — dispatches to `UploadPhotoHandler`. -/
theorem application_dispatch_spec :
    (applicationCall "/" = .dispatched .uploadFormHandler []) ∧
    (applicationCall "/upload_photo" = .dispatched .uploadPhotoHandler []) ∧
    (applicationCall "/view_photo/key7" = .dispatched .viewPhotoHandler ["key7"]) ∧
    (∀ path_info : String,
      searchEmpty (lstripSlash path_info) = Option.none →
      searchUploadPhoto (lstripSlash path_info) = Option.none →
      searchViewPhoto (lstripSlash path_info) = Option.none →
      applicationCall path_info = .notFound "404 Not Found") ∧
    (∀ (path_info : String) (t : List Char),
      lstripSlash path_info = t ++ uploadLit ∨
        lstripSlash path_info = (t ++ uploadLit) ++ ['/'] →
      applicationCall path_info = .dispatched .uploadPhotoHandler []) := by
  refine ⟨by decide, by decide, by decide, ?_, ?_⟩
  · intro path_info h1 h2 h3
    simp [applicationCall, urls, scanRoutes, h1, h2, h3]
  · intro path_info t h
    have hse := searchEmpty_none_of_upload (lstripSlash path_info) t h
    have hsu := searchUploadPhoto_some_of_upload (lstripSlash path_info) t h
    simp [applicationCall, urls, scanRoutes, hse, hsu]

/-- C5: witness. -/
theorem application_dispatch_spec_witness :
    applicationCall "///xupload_photo" = .dispatched .uploadPhotoHandler [] :=
  application_dispatch_spec.2.2.2.2 "///xupload_photo" ['x'] (Or.inl (by decide))

end BlobstoreWsgi

namespace Backoff

lemma goBackoff_ok (f : Nat → Except PyExc α) (maxTime fuel n elapsed : Nat)
    (a : α) (hf : f n = .ok a) :
    goBackoff f maxTime fuel n elapsed = ⟨.success a, n + 1, []⟩ := by
  unfold goBackoff
  rw [hf]

lemma goBackoff_noRetry (f : Nat → Except PyExc α) (maxTime fuel n elapsed : Nat)
    (e : PyExc) (hf : f n = .error e)
    (hc : ¬(e = .deadlineExceeded ∧ elapsed < maxTime)) :
    goBackoff f maxTime fuel n elapsed = ⟨.failure e, n + 1, []⟩ := by
  cases fuel with
  | zero =>
    unfold goBackoff
    rw [hf]
    exact if_neg hc
  | succ fuel' =>
    unfold goBackoff
    rw [hf]
    exact if_neg hc

lemma goBackoff_zero_fuel (f : Nat → Except PyExc α) (maxTime n elapsed : Nat)
    (e : PyExc) (hf : f n = .error e) :
    goBackoff f maxTime 0 n elapsed = ⟨.failure e, n + 1, []⟩ := by
  unfold goBackoff
  rw [hf]
  by_cases hc : e = .deadlineExceeded ∧ elapsed < maxTime
  · exact if_pos hc
  · exact if_neg hc

lemma goBackoff_retry (f : Nat → Except PyExc α) (maxTime fuel' n elapsed : Nat)
    (hf : f n = .error .deadlineExceeded) (hlt : elapsed < maxTime) :
    goBackoff f maxTime (fuel' + 1) n elapsed =
      ⟨(goBackoff f maxTime fuel' (n + 1)
          (elapsed + min (2 ^ n) (maxTime - elapsed))).outcome,
       (goBackoff f maxTime fuel' (n + 1)
          (elapsed + min (2 ^ n) (maxTime - elapsed))).attempts,
       min (2 ^ n) (maxTime - elapsed) ::
         (goBackoff f maxTime fuel' (n + 1)
            (elapsed + min (2 ^ n) (maxTime - elapsed))).waits⟩ := by
  conv_lhs => rw [goBackoff]
  simp only [hf, hlt, and_true, if_true]


lemma goBackoff_sum (f : Nat → Except PyExc α) (maxTime : Nat) :
    ∀ fuel n elapsed, elapsed ≤ maxTime →
      (goBackoff f maxTime fuel n elapsed).waits.sum + elapsed ≤ maxTime := by
  intro fuel
  induction fuel with
  | zero =>
    intro n elapsed h
    cases hf : f n with
    | ok a => rw [goBackoff_ok f maxTime 0 n elapsed a hf]; simpa using h
    | error e => rw [goBackoff_zero_fuel f maxTime n elapsed e hf]; simpa using h
  | succ fuel' ih =>
    intro n elapsed h
    cases hf : f n with
    | ok a => rw [goBackoff_ok f maxTime _ n elapsed a hf]; simpa using h
    | error e =>
      by_cases hc : e = .deadlineExceeded ∧ elapsed < maxTime
      · obtain ⟨rfl, hlt⟩ := hc
        rw [goBackoff_retry f maxTime fuel' n elapsed hf hlt]
        have hw : min (2 ^ n) (maxTime - elapsed) ≤ maxTime - elapsed :=
          Nat.min_le_right _ _
        have h2 : elapsed + min (2 ^ n) (maxTime - elapsed) ≤ maxTime := by omega
        have h3 := ih (n + 1) (elapsed + min (2 ^ n) (maxTime - elapsed)) h2
        simp only [List.sum_cons]
        omega
      · rw [goBackoff_noRetry f maxTime _ n elapsed e hf hc]; simpa using h

lemma goBackoff_retried_deadline (f : Nat → Except PyExc α) (maxTime : Nat) :
    ∀ fuel n elapsed m, n ≤ m →
      m + 1 < (goBackoff f maxTime fuel n elapsed).attempts →
      f m = .error .deadlineExceeded := by
  intro fuel
  induction fuel with
  | zero =>
    intro n elapsed m hnm hlt
    cases hf : f n with
    | ok a =>
      rw [goBackoff_ok f maxTime 0 n elapsed a hf] at hlt
      simp at hlt; omega
    | error e =>
      rw [goBackoff_zero_fuel f maxTime n elapsed e hf] at hlt
      simp at hlt; omega
  | succ fuel' ih =>
    intro n elapsed m hnm hlt
    cases hf : f n with
    | ok a =>
      rw [goBackoff_ok f maxTime _ n elapsed a hf] at hlt
      simp at hlt; omega
    | error e =>
      by_cases hc : e = .deadlineExceeded ∧ elapsed < maxTime
      · obtain ⟨rfl, hl⟩ := hc
        rw [goBackoff_retry f maxTime fuel' n elapsed hf hl] at hlt
        rcases Nat.eq_or_lt_of_le hnm with rfl | hlt2
        · exact hf
        · exact ih (n + 1) _ m hlt2 hlt
      · rw [goBackoff_noRetry f maxTime _ n elapsed e hf hc] at hlt
        simp at hlt; omega

lemma goBackoff_waits_le (f : Nat → Except PyExc α) (maxTime : Nat) :
    ∀ fuel n elapsed i,
      (goBackoff f maxTime fuel n elapsed).waits.getD i 0 ≤ 2 ^ (n + i) := by
  intro fuel
  induction fuel with
  | zero =>
    intro n elapsed i
    cases hf : f n with
    | ok a => rw [goBackoff_ok f maxTime 0 n elapsed a hf]; simp
    | error e => rw [goBackoff_zero_fuel f maxTime n elapsed e hf]; simp
  | succ fuel' ih =>
    intro n elapsed i
    cases hf : f n with
    | ok a => rw [goBackoff_ok f maxTime _ n elapsed a hf]; simp
    | error e =>
      by_cases hc : e = .deadlineExceeded ∧ elapsed < maxTime
      · obtain ⟨rfl, hl⟩ := hc
        rw [goBackoff_retry f maxTime fuel' n elapsed hf hl]
        cases i with
        | zero =>
          simp
        | succ i =>
          have h3 := ih (n + 1) (elapsed + min (2 ^ n) (maxTime - elapsed)) i
          simp only [List.getD_cons_succ]
          calc (goBackoff f maxTime fuel' (n + 1)
                  (elapsed + min (2 ^ n) (maxTime - elapsed))).waits.getD i 0
              ≤ 2 ^ (n + 1 + i) := h3
            _ ≤ 2 ^ (n + (i + 1)) := by
                rw [Nat.add_assoc, Nat.add_comm 1 i]
      · rw [goBackoff_noRetry f maxTime _ n elapsed e hf hc]; simp

/-- C6: in the tests applying the exponential-backoff decorator, the
wrapped call is re-executed only after `DeadlineExceeded`, with waits of
at most 2^0, 2^1, ... seconds summing to at most `max_time`; any other
exception propagates immediately without a retry, and on success the
decorated function returns the wrapped call's value unchanged. -/
theorem on_exception_spec (f : Nat → Except PyExc α) (maxTime : Nat) :
    (∀ a, f 0 = .ok a → runBackoff f maxTime = ⟨.success a, 1, []⟩) ∧
    (∀ c, f 0 = .error (.otherExc c) →
      runBackoff f maxTime = ⟨.failure (.otherExc c), 1, []⟩) ∧
    (runBackoff f maxTime).waits.sum ≤ maxTime ∧
    (∀ m, m + 1 < (runBackoff f maxTime).attempts →
      f m = .error .deadlineExceeded) ∧
    (∀ i, (runBackoff f maxTime).waits.getD i 0 ≤ 2 ^ i) := by
  refine ⟨?_, ?_, ?_, ?_, ?_⟩
  · intro a hf
    exact goBackoff_ok f maxTime (maxTime + 1) 0 0 a hf
  · intro c hf
    exact goBackoff_noRetry f maxTime (maxTime + 1) 0 0 (.otherExc c) hf (by simp)
  · have h := goBackoff_sum f maxTime (maxTime + 1) 0 0 (Nat.zero_le _)
    unfold runBackoff
    omega
  · intro m hm
    exact goBackoff_retried_deadline f maxTime (maxTime + 1) 0 0 m (Nat.zero_le m) hm
  · intro i
    have h := goBackoff_waits_le f maxTime (maxTime + 1) 0 0 i
    simpa using h

/-- C6: witness. -/
theorem on_exception_spec_witness :
    runBackoff (fun _ => (.ok 42 : Except PyExc Nat)) 60 = ⟨.success 42, 1, []⟩ :=
  (on_exception_spec (fun _ => .ok 42) 60).1 42 rfl

end Backoff

namespace FirestoreCity

/-- C9: for every City whose capital is a boolean, whose population is a
non-negative integer, and whose regions is a list, `from_dict` after
`to_dict` restores a city with the same six fields: `to_dict` omits the
capital, population and regions keys exactly when falsy, and `from_dict`
restores the matching constructor defaults `False`, `0`, `[]`. -/
theorem city_roundtrip (c : City)
    (hb : ∃ b, c.capital = .bool b)
    (hp : ∃ n, c.population = .int n ∧ 0 ≤ n)
    (hr : ∃ xs, c.regions = .list xs) :
    City.from_dict (City.to_dict c) = .ok c := by
  obtain ⟨b, hb⟩ := hb
  obtain ⟨n, hp, hn⟩ := hp
  obtain ⟨xs, hr⟩ := hr
  obtain ⟨name, state, country, capital, population, regions⟩ := c
  dsimp only at hb hp hr
  subst hb hp hr
  cases b <;> by_cases hn0 : n = 0 <;> cases xs <;>
    simp [City.to_dict, City.from_dict, City.make, PyVal.truthy, alookup,
      Bind.bind, Except.bind, hn0]

/-- C9: witness. -/
theorem city_roundtrip_witness :
    City.from_dict (City.to_dict
        ⟨.str "Tokyo", .none, .str "Japan", .bool true, .int 9000000,
         .list [.str "Kanto"]⟩) =
      .ok ⟨.str "Tokyo", .none, .str "Japan", .bool true, .int 9000000,
        .list [.str "Kanto"]⟩ :=
  city_roundtrip _ ⟨true, rfl⟩ ⟨9000000, rfl, by decide⟩ ⟨[.str "Kanto"], rfl⟩

end FirestoreCity
